import Mathlib

/-!
Verification of the tmws Tendermint WebSocket client core
(`src/core/parser.ts`, `src/core/client.ts`, `src/filters/filters.ts`,
`src/filters/advanced-filters.ts`, `src/transformers/transformers.ts`).

The TypeScript source is embedded shallowly: every definition below mirrors
one function or data shape of the source, with JavaScript idioms (string
truthiness, `||` defaulting, insertion-ordered objects, `Set` deduplication)
made explicit.  Strings are modelled by Lean `String`, JS arrays by `List`,
JS objects used as maps by insertion-ordered association lists, and
`undefined`-able fields by `Option`.
-/

namespace Tmws

/-- JS string truthiness: the empty string is falsy, every other string truthy. -/
def truthyS (s : String) : Bool := s ≠ ""

/-- Truthiness of a string-or-undefined value (`undefined` and `""` are falsy). -/
def truthyOS : Option String → Bool
  | none => false
  | some s => truthyS s

/-- JS `a || b` on string-or-undefined values: `b` when `a` is falsy. -/
def jsOrS (a b : Option String) : Option String := if truthyOS a then a else b

/-- List-of-chars prefix test (JS `String.prototype.startsWith`). -/
def isPrefixL : List Char → List Char → Bool
  | [], _ => true
  | _ :: _, [] => false
  | a :: as, b :: bs => a = b && isPrefixL as bs

/-- List-of-chars substring test, first argument is the needle. -/
def isInfixL (needle : List Char) : List Char → Bool
  | [] => isPrefixL needle []
  | c :: cs => isPrefixL needle (c :: cs) || isInfixL needle cs

/-- JS `hay.includes(needle)` (substring containment). -/
def jsIncludes (hay needle : String) : Bool := isInfixL needle.data hay.data

/-- JS `s.startsWith(p)`. -/
def jsStartsWith (s p : String) : Bool := isPrefixL p.data s.data

/-- JS regex class `[a-zA-Z0-9_]` (ASCII word character). -/
def isWordChar (c : Char) : Bool := c.isAlphanum || c = '_'

/-- JS regex class `[A-Za-z0-9+/=]` (base64 alphabet with padding). -/
def isB64Char (c : Char) : Bool := c.isAlphanum || c = '+' || c = '/' || c = '='

/-- Characters matched by the unprintable-control-character regex
`[\x00-\x08\x0B\x0C\x0E-\x1F\x7F-\x9F]` in `MessageParser.isBase64`. -/
def isUnprintable (c : Char) : Bool :=
  let n := c.toNat
  n ≤ 0x08 || n = 0x0B || n = 0x0C || (0x0E ≤ n && n ≤ 0x1F) ||
    (0x7F ≤ n && n ≤ 0x9F)

/-- Value of one base64 alphabet character (the callers guarantee the
character is in the alphabet; anything else maps to 0). -/
def b64Val (c : Char) : Nat :=
  if 'A' ≤ c ∧ c ≤ 'Z' then c.toNat - 65
  else if 'a' ≤ c ∧ c ≤ 'z' then c.toNat - 97 + 26
  else if '0' ≤ c ∧ c ≤ '9' then c.toNat - 48 + 52
  else if c = '+' then 62
  else if c = '/' then 63
  else 0

/-- Reassemble bytes from base64 sextets the way Node's `Buffer.from(_, 'base64')`
does: full groups of four sextets give three bytes, a trailing group of two or
three sextets gives one or two bytes, a single leftover sextet is dropped. -/
def b64Bytes : List Nat → List Nat
  | a :: b :: c :: d :: rest =>
      (a * 4 + b / 16) :: ((b % 16) * 16 + c / 4) :: ((c % 4) * 64 + d) :: b64Bytes rest
  | [a, b] => [a * 4 + b / 16]
  | [a, b, c] => [a * 4 + b / 16, (b % 16) * 16 + c / 4]
  | _ => []

/-- The U+FFFD replacement character produced by lenient UTF-8 conversion. -/
def replChar : Char := Char.ofNat 0xFFFD

/-- Is `b` a UTF-8 continuation byte (`0x80`–`0xBF`)? -/
def isContByte (b : Nat) : Bool := 0x80 ≤ b && b ≤ 0xBF

/-- Valid second byte of a three-byte sequence with lead `b1` (excludes
overlong encodings and surrogates, as a standards-following decoder does). -/
def cont3Ok (b1 b2 : Nat) : Bool :=
  if b1 = 0xE0 then 0xA0 ≤ b2 && b2 ≤ 0xBF
  else if b1 = 0xED then 0x80 ≤ b2 && b2 ≤ 0x9F
  else isContByte b2

/-- Valid second byte of a four-byte sequence with lead `b1`. -/
def cont4Ok (b1 b2 : Nat) : Bool :=
  if b1 = 0xF0 then 0x90 ≤ b2 && b2 ≤ 0xBF
  else if b1 = 0xF4 then 0x80 ≤ b2 && b2 ≤ 0x8F
  else isContByte b2

/-- Lenient UTF-8 decoding of a byte list, as performed by Node's
`buffer.toString('utf-8')`: well-formed sequences are decoded, every byte of a
malformed sequence position yields U+FFFD and decoding resumes. -/
def utf8Decode (l : List Nat) : List Char :=
  match l with
  | [] => []
  | b :: rest =>
    if b < 0x80 then Char.ofNat b :: utf8Decode rest
    else if 0xC2 ≤ b ∧ b ≤ 0xDF then
      match h : rest with
      | b2 :: rest2 =>
        if isContByte b2 then
          Char.ofNat ((b - 0xC0) * 64 + (b2 - 0x80)) :: utf8Decode rest2
        else replChar :: utf8Decode rest
      | [] => [replChar]
    else if 0xE0 ≤ b ∧ b ≤ 0xEF then
      match h : rest with
      | b2 :: b3 :: rest3 =>
        if cont3Ok b b2 && isContByte b3 then
          Char.ofNat ((b - 0xE0) * 4096 + (b2 - 0x80) * 64 + (b3 - 0x80)) :: utf8Decode rest3
        else replChar :: utf8Decode rest
      | _ => replChar :: utf8Decode rest
    else if 0xF0 ≤ b ∧ b ≤ 0xF4 then
      match h : rest with
      | b2 :: b3 :: b4 :: rest4 =>
        if cont4Ok b b2 && isContByte b3 && isContByte b4 then
          Char.ofNat ((b - 0xF0) * 262144 + (b2 - 0x80) * 4096 + (b3 - 0x80) * 64 + (b4 - 0x80))
            :: utf8Decode rest4
        else replChar :: utf8Decode rest
      | _ => replChar :: utf8Decode rest
    else replChar :: utf8Decode rest
  termination_by l.length
  decreasing_by all_goals (subst_vars; simp; try omega)

/-- `MessageParser.decodeBase64`: `Buffer.from(str, 'base64').toString('utf-8')`.
Sextets are read up to the first `=` padding character and the resulting bytes
converted to text leniently; the surrounding try/catch never fires because the
conversion is total. -/
def decodeBase64 (s : String) : String :=
  ⟨utf8Decode (b64Bytes ((s.data.takeWhile (· ≠ '=')).map b64Val))⟩

/-- `MessageParser.isBase64`: the three-stage heuristic deciding whether a
string should be treated as base64-encoded. -/
def isBase64 (s : String) : Bool :=
  if s.data.length = 0 then false
  else if ¬ (s.data.all isB64Char) then false
  else if s.data.length < 10 && s.data.all isWordChar then false
  else ¬ ((decodeBase64 s).data.any isUnprintable)

/-- The regex `/^osmo1[a-zA-Z0-9]{38,58}$/` of `MessageParser.decodeCosmosAddress`. -/
def osmoAddrPattern (s : String) : Bool :=
  let cs := s.data
  isPrefixL "osmo1".data cs &&
    (cs.drop 5).all (·.isAlphanum) &&
    38 ≤ cs.length - 5 && cs.length - 5 ≤ 58

/-- The `addressKeys` list of `MessageParser.decodeCosmosAddress`. -/
def addressKeys : List String :=
  ["sender", "recipient", "receiver", "delegator", "validator"]

/-- `MessageParser.decodeCosmosAddress`. -/
def decodeCosmosAddress (key value : String) : String :=
  if addressKeys.contains key && jsIncludes value "osmo1" then value
  else if osmoAddrPattern value then value
  else if isBase64 value then
    let decoded := decodeBase64 value
    if osmoAddrPattern decoded then decoded else value
  else value

/-! ## Data model (`src/core/events.ts`) -/

/-- One raw attribute of a `TendermintEvent`. -/
structure RawAttr where
  key : String
  value : String
  index : Option Bool
  deriving DecidableEq, Repr

/-- `TendermintEvent`: a raw event as found in the message envelope. -/
structure TendermintEvent where
  type : String
  attributes : List RawAttr
  deriving DecidableEq, Repr

/-- One entry of `DecodedTendermintEvent.rawAttributes`: the raw attribute
spread together with its decoded key and value. -/
structure RawAttribute where
  key : String
  value : String
  decodedKey : String
  decodedValue : String
  index : Option Bool
  deriving DecidableEq, Repr

/-- `DecodedTendermintEvent`.  The JS object `attributes` (decoded key →
list of decoded values) is modelled as an insertion-ordered association
list, exactly mirroring JS object key order. -/
structure DecodedTendermintEvent where
  type : String
  attributes : List (String × List String)
  rawAttributes : List RawAttribute
  deriving DecidableEq, Repr

/-- Lookup in an insertion-ordered association list (JS `obj[key]`,
`none` meaning `undefined`). -/
def lookupA (m : List (String × List String)) (k : String) : Option (List String) :=
  match m with
  | [] => none
  | (k1, vs) :: rest => if k1 = k then some vs else lookupA rest k

/-- `event.attributes[key] || []`. -/
def getAttrD (e : DecodedTendermintEvent) (k : String) : List String :=
  (lookupA e.attributes k).getD []

/-- `event.attributes[key]?.[0]` (first value of an attribute, if any). -/
def firstAttr (e : DecodedTendermintEvent) (k : String) : Option String :=
  (lookupA e.attributes k).bind List.head?

/-- `TxResult` as assembled by `MessageParser.extractTxResult`. -/
structure TxResult where
  height : String
  txhash : Option String
  events : List TendermintEvent
  gasWanted : String
  gasUsed : String
  deriving DecidableEq, Repr

/-- The arrays returned by `MessageParser.extractTransferData`. -/
structure TransferDataArr where
  senders : List String
  receivers : List String
  recipients : List String
  spenders : List String
  amounts : List String
  deriving DecidableEq, Repr

/-- One wallet-address match record produced by
`FilterManager.checkWalletAddressFilter`. -/
structure WalletMatchDetail where
  action : String
  role : String
  address : String
  deriving DecidableEq, Repr

/-- `EventFilter` (basic tier): optional type list and optional attribute
constraints; a scalar `string` configuration value is modelled by a
singleton list, matching the `Array.isArray` normalization in the code. -/
structure EventFilter where
  type : Option (List String)
  attributes : Option (List (String × List String))
  deriving DecidableEq, Repr

/-- The heterogeneous `matches` payload of a matched-filter record
(`any` in the TypeScript source, one shape per filter type). -/
inductive MatchInfo where
  | wasmContract (contractAddresses : List String)
  | walletAddress (details : List WalletMatchDetail)
  | jsonFilter (filters : List (String × List String))
  | eventFilter (filters : List EventFilter)
  deriving DecidableEq, Repr

/-- One entry of `matchedFilters` (the source field `matches` collides with
Lean syntax and is spelled `matches_` here). -/
structure MatchedFilter where
  filterType : String
  matches_ : MatchInfo
  deriving DecidableEq, Repr

/-- `DecodedTxResult`. -/
structure DecodedTxResult where
  height : String
  txhash : Option String
  events : List DecodedTendermintEvent
  decodedEvents : List DecodedTendermintEvent
  gasWanted : String
  gasUsed : String
  transferData : Option TransferDataArr
  matchedFilters : Option (List MatchedFilter)
  deriving DecidableEq, Repr

/-- `SwapTransactionDetails`. -/
structure SwapTransactionDetails where
  poolId : String
  tokenIn : String
  tokenOut : String
  amountIn : String
  amountOut : String
  sender : String
  deriving DecidableEq, Repr

/-- `StakingTransactionDetails` (the `amount`/`denom` fields are always
assigned a string by every push site, so they are modelled as `String`). -/
structure StakingTransactionDetails where
  action : String
  delegator : String
  validator : String
  amount : String
  denom : String
  sourceValidator : Option String
  destinationValidator : Option String
  deriving DecidableEq, Repr

/-- `IBCTransferDetails`. -/
structure IBCTransferDetails where
  sender : String
  receiver : String
  sourceChannel : String
  sourcePort : String
  destChannel : Option String
  destPort : Option String
  amount : String
  denom : String
  deriving DecidableEq, Repr

/-- `EnhancedDecodedTxResult extends DecodedTxResult`. -/
structure EnhancedDecodedTxResult extends DecodedTxResult where
  swapDetails : List SwapTransactionDetails
  stakingDetails : List StakingTransactionDetails
  ibcDetails : List IBCTransferDetails
  txType : Option String
  deriving DecidableEq, Repr

/-! The string values of the `EventType` enum used as transaction types. -/

namespace EventType

def Swap : String := "swap"

def Delegate : String := "delegate"

def Undelegate : String := "undelegate"

def Redelegate : String := "redelegate"

def WithdrawRewards : String := "withdraw_rewards"

def GovernanceVote : String := "governance_vote"

def ProposalDeposit : String := "proposal_deposit"

def IBCTransfer : String := "ibc_transfer"

def Transfer : String := "transfer"

def Withdraw : String := "withdraw"

end EventType

/-- The inner `result` / `tx_result` object of a raw `TxResult` payload. -/
structure InnerTxResult where
  events : Option (List TendermintEvent)
  hash : Option String
  gas_wanted : Option String
  gas_used : Option String
  deriving DecidableEq, Repr

/-- The raw `TxResult` object found at `message.result.data.value.TxResult`. -/
structure RawTxResult where
  height : String
  hash : Option String
  result : Option InnerTxResult
  tx_result : Option InnerTxResult
  tx : Option String
  deriving DecidableEq, Repr

/-- `message.result.data.value`. -/
structure WSDataValue where
  TxResult : Option RawTxResult
  hash : Option String
  deriving DecidableEq, Repr

/-- `message.result.data`. -/
structure WSData where
  value : Option WSDataValue
  deriving DecidableEq, Repr

/-- Flattened event maps (`{"event.key": ["v", ...], ...}`), modelled as an
insertion-ordered association list like every JS object. -/
abbrev FlatEvents := List (String × List String)

/-- `message.result`. -/
structure WSResult where
  data : Option WSData
  events : Option FlatEvents
  deriving DecidableEq, Repr

/-- `WSMessage` (only the fields the processing pipeline reads). -/
structure WSMessage where
  id : Option Nat
  result : Option WSResult
  events : Option FlatEvents
  deriving DecidableEq, Repr

/-! ## `MessageParser` (`src/core/parser.ts`) -/

/-- Keep the first occurrence of every string, as a JS `Set` iterated in
insertion order does. -/
def dedupKeepFirst (l : List String) : List String :=
  l.foldl (fun acc s => if acc.contains s then acc else acc ++ [s]) []

/-- `key.split('.')` as used on flattened event keys: the JS code only asks
whether there is more than one segment (the key contains a dot) and, if so,
takes the first segment (the characters before the first dot). -/
def firstDotSegment (k : String) : Option String :=
  if k.data.contains '.' then some ⟨k.data.takeWhile (· ≠ '.')⟩ else none

/-- `MessageParser.convertFlatEventsToEventObjects`: rebuild structured
events from a flattened `"type.attr" → values` map, grouping by the first
dot-separated segment. -/
def convertFlatEventsToEventObjects (flatEvents : FlatEvents) : List TendermintEvent :=
  let eventTypes := dedupKeepFirst (flatEvents.filterMap (fun kv => firstDotSegment kv.1))
  eventTypes.filterMap (fun eventType =>
    let attributes := flatEvents.flatMap (fun kv =>
      if jsStartsWith kv.1 (eventType ++ ".") then
        kv.2.map (fun value =>
          { key := (⟨kv.1.data.drop (eventType.data.length + 1)⟩ : String)
            value := value
            index := some true })
      else [])
    if attributes.length > 0 then
      some { type := eventType, attributes := attributes }
    else none)

/-- Does a flattened event map carry a key with at least one value
(`message.events['k'] && message.events['k'].length > 0`)? -/
def flatHasNonemptyKey (fe : Option FlatEvents) (k : String) : Bool :=
  match fe with
  | none => false
  | some m =>
    match lookupA m k with
    | none => false
    | some vs => vs.length > 0

/-- First value of a flattened event key, if present. -/
def flatFirst (fe : Option FlatEvents) (k : String) : Option String :=
  fe.bind (fun m => (lookupA m k).bind List.head?)

/-- `MessageParser.extractTxResult`: locate the transaction payload,
resolve the hash by the priority chain, resolve the events (with the
flattened-events fallbacks), and default the gas fields to `"0"`. -/
def extractTxResult (message : WSMessage) : Option TxResult :=
  match message.result.bind (fun r => r.data.bind (fun d => d.value)) with
  | none => none
  | some value =>
    match value.TxResult with
    | none => none
    | some txResult =>
      let txhash : Option String :=
        if truthyOS txResult.hash then txResult.hash
        else if truthyOS value.hash then value.hash
        else if truthyOS (txResult.tx_result.bind (·.hash)) then
          txResult.tx_result.bind (·.hash)
        else if flatHasNonemptyKey message.events "tx.hash" then
          flatFirst message.events "tx.hash"
        else if flatHasNonemptyKey (message.result.bind (·.events)) "tx.hash" then
          flatFirst (message.result.bind (·.events)) "tx.hash"
        else none
      let events0 : List TendermintEvent :=
        match txResult.result.bind (·.events) with
        | some es => es
        | none =>
          match txResult.tx_result.bind (·.events) with
          | some es => es
          | none => []
      let events1 :=
        if events0.length = 0 then
          match message.events with
          | some fe => convertFlatEventsToEventObjects fe
          | none => events0
        else events0
      let events2 :=
        if events1.length = 0 then
          match message.result.bind (·.events) with
          | some fe => convertFlatEventsToEventObjects fe
          | none => events1
        else events1
      some
        { height := txResult.height
          txhash := txhash
          events := events2
          gasWanted :=
            (jsOrS (txResult.result.bind (·.gas_wanted))
              (txResult.tx_result.bind (·.gas_wanted))).getD "0"
          gasUsed :=
            (jsOrS (txResult.result.bind (·.gas_used))
              (txResult.tx_result.bind (·.gas_used))).getD "0" }

/-- Insert a decoded value under a decoded key into the insertion-ordered
attribute map (JS `decodedAttributes[k].push(v)` with on-demand creation). -/
def insertAttr (m : List (String × List String)) (k v : String) :
    List (String × List String) :=
  match m with
  | [] => [(k, [v])]
  | (k1, vs) :: rest =>
    if k1 = k then (k1, vs ++ [v]) :: rest else (k1, vs) :: insertAttr rest k v

/-- The per-attribute step of `MessageParser.decodeEvents`: conditional
decoding of key and value, with the address-aware re-decode of the raw
value for address-bearing decoded keys. -/
def decodeAttr (attr : RawAttr) : RawAttribute :=
  let keyIsBase64 := isBase64 attr.key
  let valueIsBase64 := isBase64 attr.value
  let decodedKey := if keyIsBase64 then decodeBase64 attr.key else attr.key
  let decodedValue :=
    if valueIsBase64 then
      if decodedKey = "sender" ∨ decodedKey = "recipient" ∨
          decodedKey = "delegator" ∨ decodedKey = "validator" then
        decodeCosmosAddress decodedKey attr.value
      else decodeBase64 attr.value
    else attr.value
  { key := attr.key
    value := attr.value
    decodedKey := decodedKey
    decodedValue := decodedValue
    index := attr.index }

/-- `MessageParser.decodeEvents` restricted to one event. -/
def decodeEvent (event : TendermintEvent) : DecodedTendermintEvent :=
  let rawAttributes := event.attributes.map decodeAttr
  { type := event.type
    attributes :=
      rawAttributes.foldl (fun m ra => insertAttr m ra.decodedKey ra.decodedValue) []
    rawAttributes := rawAttributes }

/-- `MessageParser.decodeEvents`. -/
def decodeEvents (events : List TendermintEvent) : List DecodedTendermintEvent :=
  events.map decodeEvent

/-- JS `Set.prototype.add` on an insertion-ordered, duplicate-free list. -/
def addToSet (l : List String) (v : String) : List String :=
  if l.contains v then l else l ++ [v]

/-- `MessageParser.extractTransferData`: scan all events for the five
conventional attribute keys, accumulating into sets. -/
def extractTransferData (events : List DecodedTendermintEvent) : TransferDataArr :=
  events.foldl (fun td e =>
    let td := match lookupA e.attributes "sender" with
      | some vs => { td with senders := vs.foldl addToSet td.senders }
      | none => td
    let td := match lookupA e.attributes "receiver" with
      | some vs => { td with receivers := vs.foldl addToSet td.receivers }
      | none => td
    let td := match lookupA e.attributes "recipient" with
      | some vs => { td with recipients := vs.foldl addToSet td.recipients }
      | none => td
    let td := match lookupA e.attributes "spender" with
      | some vs => { td with spenders := vs.foldl addToSet td.spenders }
      | none => td
    match lookupA e.attributes "amount" with
      | some vs => { td with amounts := vs.foldl addToSet td.amounts }
      | none => td)
    { senders := [], receivers := [], recipients := [], spenders := [], amounts := [] }

/-- Strip `[a-zA-Z\/]` characters (the amount cleanup in
`MessageParser.extractSwapDetails`). -/
def stripAlphaSlash (s : String) : String :=
  ⟨s.data.filter (fun c => ¬ (c.isAlpha || c = '/'))⟩

/-- `MessageParser.extractSwapDetails`. -/
def extractSwapDetails (events : List DecodedTendermintEvent) :
    List SwapTransactionDetails :=
  events.flatMap (fun e =>
    if e.type = "token_swapped" then
      let poolId := firstAttr e "pool_id"
      let tokenIn := firstAttr e "tokens_in"
      let tokenOut := firstAttr e "tokens_out"
      let sender := firstAttr e "sender"
      if truthyOS poolId && truthyOS tokenIn && truthyOS tokenOut then
        let tIn := tokenIn.getD ""
        let tOut := tokenOut.getD ""
        let amountIn := stripAlphaSlash tIn
        let amountOut := stripAlphaSlash tOut
        [{ poolId := poolId.getD ""
           tokenIn := tIn
           tokenOut := tOut
           amountIn := if truthyS amountIn then amountIn else tIn
           amountOut := if truthyS amountOut then amountOut else tOut
           sender := sender.getD "" }]
      else []
    else [])

/-- JS regex character class `.` (any character except a line terminator). -/
def jsDotChar (c : Char) : Bool :=
  ¬ (c = '\n' || c = '\r' || c.toNat = 0x2028 || c.toNat = 0x2029)

/-- The amount split `amount.match(/^([0-9]+)(.+)$/)` used by the staking and
IBC extractors: on success the pair (digit prefix, rest); the greedy first
group backtracks one digit when the whole string is digits, so an all-digit
amount of length ≥ 2 splits before its last digit; on failure the pair
(whole string, `""`). -/
def splitAmount (s : String) : String × String :=
  let cs := s.data
  let ds := cs.takeWhile (·.isDigit)
  let rest := cs.drop ds.length
  if ds.isEmpty then (s, "")
  else if rest.isEmpty then
    if ds.length ≥ 2 then (⟨ds.dropLast⟩, ⟨ds.drop (ds.length - 1)⟩) else (s, "")
  else if rest.all jsDotChar then (⟨ds⟩, ⟨rest⟩)
  else (s, "")

/-- `if (amount) { ...match... }` step shared by the staking branches:
an absent or empty amount gives `("", "")`. -/
def parseAmountOpt (amount : Option String) : String × String :=
  match amount with
  | none => ("", "")
  | some a => if truthyS a then splitAmount a else ("", "")

/-- `event.attributes['action']?.some(a => a.includes(needle))`. -/
def actionsAny (e : DecodedTendermintEvent) (needle : String) : Bool :=
  (getAttrD e "action").any (fun a => jsIncludes a needle)

/-- The per-event case analysis of `MessageParser.extractStakingDetails`:
four mutually exclusive branches tried in order (withdraw_rewards, delegate,
unbond/undelegate, redelegate). -/
def stakingFromEvent (e : DecodedTendermintEvent) : List StakingTransactionDetails :=
  if e.type = "withdraw_rewards" then
    let delegator := firstAttr e "delegator"
    let validator := firstAttr e "validator"
    let amount := firstAttr e "amount"
    if truthyOS delegator && truthyOS validator then
      [{ action := "withdraw_rewards"
         delegator := delegator.getD ""
         validator := validator.getD ""
         amount := (parseAmountOpt amount).1
         denom := (parseAmountOpt amount).2
         sourceValidator := none
         destinationValidator := none }]
    else []
  else if e.type = "delegate" || actionsAny e "MsgDelegate" then
    let delegator := jsOrS (firstAttr e "delegator") (firstAttr e "sender")
    let validator := firstAttr e "validator"
    let amount := firstAttr e "amount"
    if truthyOS delegator && truthyOS validator then
      [{ action := "delegate"
         delegator := delegator.getD ""
         validator := validator.getD ""
         amount := (parseAmountOpt amount).1
         denom := (parseAmountOpt amount).2
         sourceValidator := none
         destinationValidator := none }]
    else []
  else if e.type = "unbond" || actionsAny e "MsgUndelegate" then
    let delegator := jsOrS (firstAttr e "delegator") (firstAttr e "sender")
    let validator := firstAttr e "validator"
    let amount := firstAttr e "amount"
    if truthyOS delegator && truthyOS validator then
      [{ action := "undelegate"
         delegator := delegator.getD ""
         validator := validator.getD ""
         amount := (parseAmountOpt amount).1
         denom := (parseAmountOpt amount).2
         sourceValidator := none
         destinationValidator := none }]
    else []
  else if e.type = "redelegate" || actionsAny e "MsgBeginRedelegate" then
    let delegator := jsOrS (firstAttr e "delegator") (firstAttr e "sender")
    let sourceValidator := firstAttr e "source_validator"
    let destinationValidator := firstAttr e "destination_validator"
    let amount := firstAttr e "amount"
    if truthyOS delegator && (truthyOS sourceValidator || truthyOS destinationValidator) then
      [{ action := "redelegate"
         delegator := delegator.getD ""
         validator := (jsOrS destinationValidator sourceValidator).getD ""
         amount := (parseAmountOpt amount).1
         denom := (parseAmountOpt amount).2
         sourceValidator := sourceValidator
         destinationValidator := destinationValidator }]
    else []
  else []

/-- `MessageParser.extractStakingDetails`. -/
def extractStakingDetails (events : List DecodedTendermintEvent) :
    List StakingTransactionDetails :=
  events.flatMap stakingFromEvent

/-- `MessageParser.extractIBCDetails`. -/
def extractIBCDetails (events : List DecodedTendermintEvent) :
    List IBCTransferDetails :=
  events.flatMap (fun e =>
    if e.type = "send_packet" then
      let sourcePort := firstAttr e "packet_src_port"
      let sourceChannel := firstAttr e "packet_src_channel"
      let destPort := firstAttr e "packet_dst_port"
      let destChannel := firstAttr e "packet_dst_channel"
      let transferEvents := events.filter (fun te => te.type = "transfer")
      if transferEvents.length > 0 && sourcePort = some "transfer" then
        transferEvents.flatMap (fun te =>
          let sender := firstAttr te "sender"
          let receiver := firstAttr te "recipient"
          let amount := firstAttr te "amount"
          if truthyOS sender && truthyOS receiver && truthyOS amount &&
              truthyOS sourceChannel then
            [{ sender := sender.getD ""
               receiver := receiver.getD ""
               sourceChannel := sourceChannel.getD ""
               sourcePort := sourcePort.getD ""
               destChannel := destChannel
               destPort := destPort
               amount := (splitAmount (amount.getD "")).1
               denom := (splitAmount (amount.getD "")).2 }]
          else [])
      else []
    else [])

/-- `MessageParser.processTxMessage`. -/
def processTxMessage (message : WSMessage) : Option DecodedTxResult :=
  match extractTxResult message with
  | none => none
  | some txResult =>
    let decodedEvents := decodeEvents txResult.events
    let transferData := extractTransferData decodedEvents
    some
      { height := txResult.height
        txhash := txResult.txhash
        events := decodedEvents
        decodedEvents := decodedEvents
        gasWanted := txResult.gasWanted
        gasUsed := txResult.gasUsed
        transferData := some transferData
        matchedFilters := none }

/-- The actions of all `message`-typed events
(`messageEvents.flatMap(e => e.attributes['action'] || [])`). -/
def messageActions (events : List DecodedTendermintEvent) : List String :=
  (events.filter (fun e => e.type = "message")).flatMap (fun e => getAttrD e "action")

/-- The transaction-type determination of
`MessageParser.processEnhancedTxMessage`: message actions first, then the
fact-based fallback chain. -/
def determineTxType (events : List DecodedTendermintEvent)
    (swapDetails : List SwapTransactionDetails)
    (stakingDetails : List StakingTransactionDetails)
    (ibcDetails : List IBCTransferDetails) : Option String :=
  let messageEvents := events.filter (fun e => e.type = "message")
  let fromActions : Option String :=
    if messageEvents.length > 0 then
      let actions := messageActions events
      if actions.any (fun a =>
          jsIncludes a "MsgSwapExactAmountIn" || jsIncludes a "MsgSwap") then
        some EventType.Swap
      else if actions.any (fun a => jsIncludes a "MsgDelegate") then
        some EventType.Delegate
      else if actions.any (fun a => jsIncludes a "MsgUndelegate") then
        some EventType.Undelegate
      else if actions.any (fun a => jsIncludes a "MsgBeginRedelegate") then
        some EventType.Redelegate
      else if actions.any (fun a => jsIncludes a "MsgWithdrawDelegatorReward") then
        some EventType.WithdrawRewards
      else if actions.any (fun a => jsIncludes a "MsgVote") then
        some EventType.GovernanceVote
      else if actions.any (fun a => jsIncludes a "MsgDeposit") then
        some EventType.ProposalDeposit
      else none
    else none
  match fromActions with
  | some t => some t
  | none =>
    if swapDetails.length > 0 then some EventType.Swap
    else
      match stakingDetails with
      | s :: _ =>
        if s.action = "withdraw_rewards" then some EventType.WithdrawRewards
        else if s.action = "delegate" then some EventType.Delegate
        else if s.action = "undelegate" then some EventType.Undelegate
        else if s.action = "redelegate" then some EventType.Redelegate
        else none
      | [] =>
        if ibcDetails.length > 0 then some EventType.IBCTransfer
        else if events.any (fun e => e.type = "transfer") then some EventType.Transfer
        else if events.any (fun e => e.type = "withdraw_position") then
          some EventType.Withdraw
        else none

/-- `MessageParser.processEnhancedTxMessage`. -/
def processEnhancedTxMessage (message : WSMessage) : Option EnhancedDecodedTxResult :=
  match processTxMessage message with
  | none => none
  | some baseTx =>
    let swapDetails := extractSwapDetails baseTx.decodedEvents
    let stakingDetails := extractStakingDetails baseTx.decodedEvents
    let ibcDetails := extractIBCDetails baseTx.decodedEvents
    some
      { toDecodedTxResult := baseTx
        swapDetails := swapDetails
        stakingDetails := stakingDetails
        ibcDetails := ibcDetails
        txType := determineTxType baseTx.decodedEvents swapDetails stakingDetails ibcDetails }

/-- `MessageParser.isSubscriptionConfirmation`. -/
def isSubscriptionConfirmation (message : WSMessage) : Bool :=
  message.id.isSome &&
    (match message.result with
     | none => false
     | some r => r.data.isNone && r.events.isNone)

/-- Does a flattened event map contain the key at all (JS truthiness of
`events['aggregate_vote.exchange_rates']`)?  A present key always maps to a
(possibly empty, still truthy) array. -/
def flatHasKey (fe : Option FlatEvents) (k : String) : Bool :=
  match fe with
  | none => false
  | some m => (lookupA m k).isSome

/-- `MessageParser.containsUnwantedEvents`. -/
def containsUnwantedEvents (message : WSMessage) : Bool :=
  flatHasKey (message.result.bind (·.events)) "aggregate_vote.exchange_rates" ||
    flatHasKey message.events "aggregate_vote.exchange_rates"

/-! ## `FilterManager` (`src/filters/filters.ts`) -/

/-- The state of a constructed `FilterManager`: `filters` is populated by
`loadFilters`, the other three fields by the constructor (scalar
configuration values already normalized to lists). -/
structure FilterState where
  filters : List (String × List String)
  walletAddresses : List String
  wasmContractFilter : Option (List String)
  eventFilters : List EventFilter
  deriving DecidableEq, Repr

/-- `FilterManager.checkWasmContractFilter`. -/
def checkWasmContractFilter (st : FilterState) (tx : DecodedTxResult) : Bool :=
  match st.wasmContractFilter with
  | none => true
  | some wasmContracts =>
    (tx.decodedEvents.filter (fun e =>
      e.type = "message" &&
        (getAttrD e "action").any (fun action => jsIncludes action "wasm") &&
        (getAttrD e "contract").any (fun contract => wasmContracts.contains contract))).length > 0

/-- The five attribute roles inspected by the wallet filter. -/
def relevantKeys : List String :=
  ["sender", "recipient", "delegator", "validator", "spender"]

/-- `FilterManager.checkWalletAddressFilter`: returns the `matches` flag and
the `matchDetails` evidence list. -/
def checkWalletAddressFilter (st : FilterState) (tx : DecodedTxResult) :
    Bool × List WalletMatchDetail :=
  if st.walletAddresses.length = 0 then (true, [])
  else
    let matchDetails := tx.decodedEvents.flatMap (fun e =>
      if e.type = "message" then
        (getAttrD e "action").flatMap (fun action =>
          if jsStartsWith action "/cosmos.staking." ||
              jsStartsWith action "/cosmos.distribution." ||
              jsStartsWith action "/ibc." ||
              jsIncludes action "wasm" then
            relevantKeys.flatMap (fun key =>
              (getAttrD e key).flatMap (fun value =>
                match st.walletAddresses.find? (fun address => value = address) with
                | some matchingWallet =>
                  [{ action := action, role := key, address := matchingWallet }]
                | none => []))
          else [])
      else [])
    (matchDetails.length > 0, matchDetails)

/-- `FilterManager.checkJsonFilters`. -/
def checkJsonFilters (st : FilterState) (tx : DecodedTxResult) : Bool :=
  if st.filters.length = 0 then true
  else
    tx.decodedEvents.any (fun e =>
      st.filters.any (fun fkv =>
        let attributeValues := getAttrD e fkv.1
        let receiverValues := if fkv.1 = "recipient" then getAttrD e "receiver" else []
        attributeValues.any (fun v => fkv.2.contains v) ||
          receiverValues.any (fun v => fkv.2.contains v)))

/-- One `EventFilter` applied to one event (the body of
`FilterManager.checkEventFilters`). -/
def matchesEventFilter (e : DecodedTendermintEvent) (f : EventFilter) : Bool :=
  (match f.type with
   | some types => types.contains e.type
   | none => true) &&
  (match f.attributes with
   | some attrs =>
     if attrs.length > 0 then
       attrs.any (fun akv => (getAttrD e akv.1).any (fun v => akv.2.contains v))
     else false
   | none => true)

/-- `FilterManager.checkEventFilters`. -/
def checkEventFilters (st : FilterState) (tx : DecodedTxResult) : Bool :=
  if st.eventFilters.length = 0 then true
  else
    tx.decodedEvents.any (fun e => st.eventFilters.any (fun f => matchesEventFilter e f))

/-- `FilterManager.applyFilters`: evidence collection for each configured,
matching tier, and the conjunctive pass flag over configured tiers. -/
def applyFilters (st : FilterState) (tx : DecodedTxResult) :
    Bool × List MatchedFilter :=
  let wasmMatch := checkWasmContractFilter st tx
  let wallet := checkWalletAddressFilter st tx
  let jsonMatch := checkJsonFilters st tx
  let eventMatch := checkEventFilters st tx
  let matchedFilters :=
    (match st.wasmContractFilter with
     | some lst => if wasmMatch then
         [{ filterType := "wasmContract", matches_ := MatchInfo.wasmContract lst }]
       else []
     | none => []) ++
    (if st.walletAddresses.length > 0 && wallet.1 then
       [{ filterType := "walletAddress", matches_ := MatchInfo.walletAddress wallet.2 }]
     else []) ++
    (if st.filters.length > 0 && jsonMatch then
       [{ filterType := "jsonFilter", matches_ := MatchInfo.jsonFilter st.filters }]
     else []) ++
    (if st.eventFilters.length > 0 && eventMatch then
       [{ filterType := "eventFilter", matches_ := MatchInfo.eventFilter st.eventFilters }]
     else [])
  let passed :=
    (st.wasmContractFilter.isNone || wasmMatch) &&
    (decide (st.walletAddresses.length = 0) || wallet.1) &&
    (decide (st.filters.length = 0) || jsonMatch) &&
    (decide (st.eventFilters.length = 0) || eventMatch)
  (passed, matchedFilters)

/-! ## Filter-file loading (`FilterManager.loadFilters`) -/

/-- The JSON value a filter file parses to.  The loader's only inspection of
the parsed value is `Array.isArray`, and the elements of an accepted array
flow into `filters[key]` as the strings the matching code compares against,
so arrays are modelled by their element strings. -/
inductive Json where
  | arr (elems : List String)
  | obj
  | str (s : String)
  | num (n : Int)
  | bool (b : Bool)
  | null
  deriving DecidableEq, Repr

/-- Is the parsed value a top-level array (`Array.isArray`)? -/
def Json.isArr : Json → Bool
  | .arr _ => true
  | _ => false

/-- `FilterManager.loadFilters`, with the file system and `JSON.parse`
modelled by `fs : String → Option Json` (`none` = file missing, unreadable,
or unparseable).  Every failure — read error, parse error, or a top-level
value that is not an array — is rethrown to the caller; successfully read
entries populate the `filters` map in order. -/
def loadFilters (fs : String → Option Json) :
    List (String × String) → Except String (List (String × List String))
  | [] => .ok []
  | (key, path) :: rest =>
    match fs path with
    | none => .error ("Error loading filter file " ++ path)
    | some j =>
      match j with
      | .arr filterValues =>
        match loadFilters fs rest with
        | .ok m => .ok ((key, filterValues) :: m)
        | .error e => .error e
      | _ => .error ("Filter file " ++ path ++ " must contain an array")

/-! ## `AdvancedFilterEngine` (`src/filters/advanced-filters.ts`) -/

/-- `MatchType`. -/
inductive MatchType where
  | exact
  | contains
  | startsWith
  | endsWith
  | regex
  deriving DecidableEq, Repr

/-- `AttributeCondition` (a scalar `value` is modelled by a singleton list,
matching the `Array.isArray` normalization; `matchType` and `negated`
keep their `undefined` defaults explicit). -/
structure AttributeCondition where
  key : String
  value : Option (List String)
  matchType : Option MatchType
  negated : Option Bool
  deriving DecidableEq, Repr

/-- Numeric range condition of an `AdvancedFilter`. -/
structure RangeSpec where
  field : String
  min : Option Int
  max : Option Int
  deriving DecidableEq, Repr

/-- `AdvancedFilter`.  The guards on `anyOf`/`allOf`/`noneOf`/`or`/`and`
(`x && x.length > 0`) treat an absent list and an empty list identically,
so those fields are modelled as plain lists. -/
inductive AdvancedFilter where
  | mk (name : Option String) (eventType : Option (List String))
      (anyOf allOf noneOf : List AttributeCondition)
      (messageType : Option (List String))
      (orF andF : List AdvancedFilter)
      (txHash : Option (List String))
      (range : Option RangeSpec)
  deriving Repr

/-- `filter.name`. -/
def AdvancedFilter.name : AdvancedFilter → Option String
  | .mk name _ _ _ _ _ _ _ _ _ => name

/-- One condition applied to one event
(`AdvancedFilterEngine.matchesCondition`).  `regexTest pattern s` models
`new RegExp(pattern).test(s)` with the malformed-pattern fallback to
`false` folded in; it is a parameter because the regex engine is a JS
builtin outside this codebase. -/
def matchesCondition (regexTest : String → String → Bool)
    (e : DecodedTendermintEvent) (condition : AttributeCondition) : Bool :=
  let negated := condition.negated.getD false
  match lookupA e.attributes condition.key with
  | none => negated
  | some eventValues =>
    match condition.value with
    | none => !negated
    | some valuesToMatch =>
      let matchesB := eventValues.any (fun eventValue =>
        valuesToMatch.any (fun condValue =>
          match condition.matchType.getD MatchType.exact with
          | .contains => jsIncludes eventValue condValue
          | .startsWith => jsStartsWith eventValue condValue
          | .endsWith => isPrefixL condValue.data.reverse eventValue.data.reverse
          | .regex => regexTest condValue eventValue
          | .exact => eventValue = condValue))
      if negated then !matchesB else matchesB

/-- `Number(tx[field])` in the range check, modelled as integer parsing of
the named string field (the fields the check is meant for — `height`,
`gasWanted`, `gasUsed` — are integer-valued strings); a non-numeric or
non-string field gives `none` (NaN). -/
def txNumField (tx : DecodedTxResult) (field : String) : Option Int :=
  if field = "height" then tx.height.toInt?
  else if field = "gasWanted" then tx.gasWanted.toInt?
  else if field = "gasUsed" then tx.gasUsed.toInt?
  else if field = "txhash" then (tx.txhash.getD "").toInt?
  else none

/-- `AdvancedFilterEngine.getMatchingEvents`. -/
def getMatchingEvents (events : List DecodedTendermintEvent) :
    Option (List String) → List DecodedTendermintEvent
  | none => events
  | some eventTypes => events.filter (fun e => eventTypes.contains e.type)

mutual

/-- `AdvancedFilterEngine.matchesFilter`: the sequence of early-return
checks of the source, in order. -/
def matchesFilter (regexTest : String → String → Bool) (tx : DecodedTxResult) :
    AdvancedFilter → Bool
  | .mk _ eventType anyOf allOf noneOf messageType orF andF txHash range =>
    (match txHash with
     | none => true
     | some hashes =>
       match tx.txhash with
       | some h => hashes.contains h
       | none => false) &&
    (match range with
     | none => true
     | some r =>
       match txNumField tx r.field with
       | none => false
       | some v =>
         (match r.min with | none => true | some mn => decide (mn ≤ v)) &&
         (match r.max with | none => true | some mx => decide (v ≤ mx)))&&
    (decide (orF.length = 0) || anyFilterMatches regexTest tx orF) &&
    (decide (andF.length = 0) || allFiltersMatch regexTest tx andF) &&
    (let matchingEvents := getMatchingEvents tx.decodedEvents eventType
     decide (matchingEvents.length > 0) &&
     (decide (anyOf.length = 0) ||
       matchingEvents.any (fun e =>
         anyOf.any (fun c => matchesCondition regexTest e c))) &&
     (decide (allOf.length = 0) ||
       allOf.all (fun c =>
         matchingEvents.any (fun e => matchesCondition regexTest e c))) &&
     (decide (noneOf.length = 0) ||
       !(matchingEvents.any (fun e =>
         noneOf.any (fun c => matchesCondition regexTest e c)))) &&
     (match messageType with
      | none => true
      | some messageTypes =>
        let messageEvents := matchingEvents.filter (fun e => e.type = "message")
        decide (messageEvents.length > 0) &&
        messageEvents.any (fun e =>
          (getAttrD e "action").any (fun action =>
            messageTypes.any (fun msgType => jsIncludes action msgType)))))

/-- `filter.or.some(...)`. -/
def anyFilterMatches (regexTest : String → String → Bool) (tx : DecodedTxResult) :
    List AdvancedFilter → Bool
  | [] => false
  | f :: fs => matchesFilter regexTest tx f || anyFilterMatches regexTest tx fs

/-- `filter.and.every(...)`. -/
def allFiltersMatch (regexTest : String → String → Bool) (tx : DecodedTxResult) :
    List AdvancedFilter → Bool
  | [] => true
  | f :: fs => matchesFilter regexTest tx f && allFiltersMatch regexTest tx fs

end

/-- `AdvancedFilterEngine.applyFilters`. -/
def advApplyFilters (regexTest : String → String → Bool)
    (filters : List AdvancedFilter) (tx : DecodedTxResult) : Bool × List String :=
  if filters.length = 0 then (true, [])
  else
    let matchedFilters :=
      (filters.filter (fun f => matchesFilter regexTest tx f)).map
        (fun f => f.name.getD "unnamed_filter")
    (matchedFilters.length > 0, matchedFilters)

/-! ## `ChainTransformer` (`src/transformers/transformers.ts`) and the
dispatch path (`TendermintWSClient.handleWebSocketMessage`) -/

/-- `ChainTransformer.transformEvents`: every variant inherits
`GenericTransformer`'s implementation, which returns the decoded
transaction unchanged. -/
def transformEvents (tx : DecodedTxResult) : DecodedTxResult := tx

/-- The staking-operation detection in
`TendermintWSClient.handleWebSocketMessage`. -/
def hasStakingOp (tx : DecodedTxResult) : Bool :=
  tx.decodedEvents.any (fun e =>
    e.type = "message" &&
      (getAttrD e "action").any (fun action =>
        jsIncludes action "cosmos.staking" || jsIncludes action "cosmos.distribution"))

/-- The typed events emitted by the dispatch path. -/
inductive Emission where
  | message (m : WSMessage)
  | subscriptionConfirmed (m : WSMessage)
  | tx (t : DecodedTxResult)
  | filteredTx (t : DecodedTxResult)
  | wasmTx (t : DecodedTxResult)
  | walletTx (t : DecodedTxResult)
  | stakingTx (t : DecodedTxResult)
  deriving DecidableEq, Repr

/-- `TendermintWSClient.handleWebSocketMessage` after JSON parsing, as the
list of events it emits, in order.  The advanced-filter result is computed
(`const advancedFilterResult = ...`) but, as in the source, bound without
being read. -/
def handleWebSocketMessage (st : FilterState)
    (advancedFilters : List AdvancedFilter) (regexTest : String → String → Bool)
    (excludeUnwantedEvents : Bool) (message : WSMessage) : List Emission :=
  Emission.message message ::
  (if excludeUnwantedEvents && containsUnwantedEvents message then []
   else if isSubscriptionConfirmation message then
     [Emission.subscriptionConfirmed message]
   else
     match processTxMessage message with
     | none => []
     | some decodedTx =>
       let transformedTx := transformEvents decodedTx
       Emission.tx transformedTx ::
       (let pm := applyFilters st transformedTx
        if pm.1 then
          let _advancedFilterResult := advApplyFilters regexTest advancedFilters transformedTx
          let finalTx := { transformedTx with matchedFilters := some pm.2 }
          Emission.filteredTx finalTx ::
          ((if pm.2.any (fun f => f.filterType = "wasmContract") then
              [Emission.wasmTx finalTx]
            else []) ++
           (if pm.2.any (fun f => f.filterType = "walletAddress") then
              [Emission.walletTx finalTx]
            else []) ++
           (if hasStakingOp transformedTx then [Emission.stakingTx finalTx] else []))
        else []))

/-! ## Concrete inputs used by the scenario theorems and witnesses -/

/-- The `message` event of the delegate scenario (spec §8): action
`/cosmos.staking.v1beta1.MsgDelegate`, delegator `A`, validator `V`,
amount `100uatom`. -/
def delegateMessageEvent : TendermintEvent :=
  { type := "message"
    attributes :=
      [{ key := "action", value := "/cosmos.staking.v1beta1.MsgDelegate", index := none },
       { key := "delegator", value := "A", index := none },
       { key := "validator", value := "V", index := none },
       { key := "amount", value := "100uatom", index := none }] }

/-- The `transfer` event of the delegate scenario: sender `A`, recipient
`V`, amount `100uatom`. -/
def delegateTransferEvent : TendermintEvent :=
  { type := "transfer"
    attributes :=
      [{ key := "sender", value := "A", index := none },
       { key := "recipient", value := "V", index := none },
       { key := "amount", value := "100uatom", index := none }] }

/-- The scenario input message: the two events above at
`result.data.value.TxResult.result.events`. -/
def delegateScenarioMsg : WSMessage :=
  { id := none
    result := some
      { data := some
          { value := some
              { TxResult := some
                  { height := "100"
                    hash := none
                    result := some
                      { events := some [delegateMessageEvent, delegateTransferEvent]
                        hash := none
                        gas_wanted := some "0"
                        gas_used := some "0" }
                    tx_result := none
                    tx := none }
                hash := none } }
        events := none }
    events := none }

/-- Input message for the flattened-events fallback scenario: a `TxResult`
payload with no structured event list, flattened events at the root. -/
def flatFallbackMsg : WSMessage :=
  { id := none
    result := some
      { data := some
          { value := some
              { TxResult := some
                  { height := "7", hash := none, result := none, tx_result := none, tx := none }
                hash := none } }
        events := none }
    events := some [("transfer.sender", ["A"]), ("transfer.amount", ["5uosmo"])] }

/-- A `message` event carrying both a delegate action and a swap action. -/
def delegateAndSwapMessageEvent : TendermintEvent :=
  { type := "message"
    attributes :=
      [{ key := "action", value := "/cosmos.staking.v1beta1.MsgDelegate", index := none },
       { key := "action", value := "/osmosis.gamm.v1beta1.MsgSwapExactAmountIn", index := none }] }

/-- Counterexample input for the classification-priority claim: a
transaction containing a `message` event whose actions include
`MsgDelegate` (and also a swap action) plus a `token_swapped` event. -/
def delegateSwapCexMsg : WSMessage :=
  { id := none
    result := some
      { data := some
          { value := some
              { TxResult := some
                  { height := "1"
                    hash := none
                    result := some
                      { events := some
                          [delegateAndSwapMessageEvent, { type := "token_swapped", attributes := [] }]
                        hash := none
                        gas_wanted := none
                        gas_used := none }
                    tx_result := none
                    tx := none }
                hash := none } }
        events := none }
    events := none }

/-- A `message` event carrying only the delegate action. -/
def delegateOnlyMessageEvent : TendermintEvent :=
  { type := "message"
    attributes :=
      [{ key := "action", value := "/cosmos.staking.v1beta1.MsgDelegate", index := none }] }

/-- Witness input for the amended classification claim: one delegate
`message` action, no swap action, and a `token_swapped` event. -/
def delegateTokenSwappedMsg : WSMessage :=
  { id := none
    result := some
      { data := some
          { value := some
              { TxResult := some
                  { height := "2"
                    hash := none
                    result := some
                      { events := some
                          [delegateOnlyMessageEvent,
                           { type := "token_swapped", attributes := [] }]
                        hash := none
                        gas_wanted := none
                        gas_used := none }
                    tx_result := none
                    tx := none }
                hash := none } }
        events := none }
    events := none }

/-- A decoded `withdraw_rewards` event with a `sender` and `validator`
but no `delegator` attribute. -/
def withdrawNoDelegatorEvent : DecodedTendermintEvent :=
  { type := "withdraw_rewards"
    attributes := [("sender", ["S"]), ("validator", ["V"]), ("amount", ["1uatom"])]
    rawAttributes := [] }

/-- A decoded event recognized as a delegation through its message action,
with the delegator only available through the `sender` attribute. -/
def delegateSenderFallbackEvent : DecodedTendermintEvent :=
  { type := "message"
    attributes :=
      [("action", ["/cosmos.staking.v1beta1.MsgDelegate"]),
       ("sender", ["S"]), ("validator", ["V"]), ("amount", ["100uatom"])]
    rawAttributes := [] }

/-- A decoded `delegate` event with neither `delegator` nor `sender`. -/
def delegateNoDelegatorEvent : DecodedTendermintEvent :=
  { type := "delegate", attributes := [("validator", ["V"])], rawAttributes := [] }

/-- A decoded `delegate` event with no validator field of any kind. -/
def delegateNoValidatorEvent : DecodedTendermintEvent :=
  { type := "delegate", attributes := [("delegator", ["D"])], rawAttributes := [] }

/-- A raw attribute whose value is already decoded. -/
def noteAttr : RawAttr := { key := "note", value := "hello world", index := none }

/-- A raw event carrying `noteAttr`. -/
def noteEvent : TendermintEvent := { type := "transfer", attributes := [noteAttr] }

/-- A raw event carrying the same decoded key twice. -/
def duplicateSenderEvent : TendermintEvent :=
  { type := "transfer"
    attributes :=
      [{ key := "sender", value := "A", index := none },
       { key := "sender", value := "B", index := none }] }

/-- A decoded `message` event involving wallet `addr1` as delegator of a
staking action. -/
def walletMatchEvent : DecodedTendermintEvent :=
  { type := "message"
    attributes :=
      [("action", ["/cosmos.staking.v1beta1.MsgDelegate"]), ("delegator", ["addr1"])]
    rawAttributes := [] }

/-- A decoded transaction containing only `walletMatchEvent`. -/
def walletMatchTx : DecodedTxResult :=
  { height := "1", txhash := none, events := [walletMatchEvent],
    decodedEvents := [walletMatchEvent], gasWanted := "0", gasUsed := "0",
    transferData := none, matchedFilters := none }

/-- A structural event filter matching only events of type `burn`. -/
def burnEventFilter : EventFilter := { type := some ["burn"], attributes := none }

/-- Wallet-only filter configuration watching `addr1`. -/
def walletOnlyState : FilterState :=
  { filters := [], walletAddresses := ["addr1"], wasmContractFilter := none,
    eventFilters := [] }

/-- Wallet configuration with an additional unmatched structural filter. -/
def walletAndBurnState : FilterState :=
  { filters := [], walletAddresses := ["addr1"], wasmContractFilter := none,
    eventFilters := [burnEventFilter] }

/-- A completely unconfigured filter state. -/
def emptyFilterState : FilterState :=
  { filters := [], walletAddresses := [], wasmContractFilter := none, eventFilters := [] }

/-- A filter state with only wallet filtering configured. -/
def walletStateOf (wallets : List String) : FilterState :=
  { filters := [], walletAddresses := wallets, wasmContractFilter := none, eventFilters := [] }

/-- A filter state with wallet filtering and structural event filters. -/
def walletEventStateOf (wallets : List String) (efs : List EventFilter) : FilterState :=
  { filters := [], walletAddresses := wallets, wasmContractFilter := none, eventFilters := efs }

/-- Wallet-only filter configuration watching `A` (the scenario delegator). -/
def walletAState : FilterState :=
  { filters := [], walletAddresses := ["A"], wasmContractFilter := none, eventFilters := [] }

/-- A trivial advanced filter (every field unset). -/
def trivialAdvancedFilter : AdvancedFilter :=
  AdvancedFilter.mk none none [] [] [] none [] [] none none

/-- A regex oracle for witnesses (never matches). -/
def noRegex : String → String → Bool := fun _ _ => false

/-- Modelled file system for the load-filters witness: `good.json` parses
to an array, `bad.json` to an object, everything else is unreadable. -/
def witnessFs : String → Option Json := fun path =>
  if path = "good.json" then some (Json.arr ["osmo1recipient"])
  else if path = "bad.json" then some Json.obj
  else none

/-- Filter-file map containing one well-formed and one malformed entry. -/
def witnessFilterFiles : List (String × String) :=
  [("recipients", "good.json"), ("senders", "bad.json")]

/-- Is an `Except` result an error? -/
def isErr {α β : Type} : Except α β → Bool
  | .error _ => true
  | .ok _ => false

/-! ## Theorems -/

/-- Claim C1: for the input message whose `TxResult.result.events` hold one
`message` event (action `/cosmos.staking.v1beta1.MsgDelegate`, delegator
`A`, validator `V`, amount `100uatom`) and one `transfer` event (sender
`A`, recipient `V`, amount `100uatom`), enhanced processing classifies the
transaction as `delegate`, extracts exactly the staking fact
`{delegate, A, V, 100, uatom}`, and the transfer senders set is `{A}`. -/
theorem c1_enhanced_delegate_scenario :
    (processEnhancedTxMessage delegateScenarioMsg).map (fun t =>
        (t.txType, t.stakingDetails, t.transferData.map (·.senders))) =
      some (some EventType.Delegate,
        [{ action := "delegate", delegator := "A", validator := "V",
           amount := "100", denom := "uatom",
           sourceValidator := none, destinationValidator := none }],
        some ["A"]) := by
  decide

/-- Claim C7: for a message whose `TxResult` has no structured event list
but whose root carries the flattened map
`{"transfer.sender": ["A"], "transfer.amount": ["5uosmo"]}`, envelope
extraction reconstructs exactly one `transfer` event with attribute entries
`sender = A` and `amount = 5uosmo`, both flagged as indexed. -/
theorem c7_flattened_events_fallback :
    (extractTxResult flatFallbackMsg).map (·.events) =
      some [{ type := "transfer"
              attributes :=
                [{ key := "sender", value := "A", index := some true },
                 { key := "amount", value := "5uosmo", index := some true }] }] := by
  decide

/-- Claim C2, counterexample: a transaction whose `message` event actions
include `/cosmos.staking.v1beta1.MsgDelegate` and which contains a
`token_swapped` event, but which classifies as `swap` (not `delegate`)
because a second message action matches the swap patterns first. -/
theorem c2_classification_counterexample :
    (processEnhancedTxMessage delegateSwapCexMsg).map (fun t =>
        ((messageActions t.decodedEvents).any
            (fun a => jsIncludes a "/cosmos.staking.v1beta1.MsgDelegate"),
         t.decodedEvents.any (fun e => e.type = "token_swapped"),
         t.txType)) =
      some (true, true, some EventType.Swap) ∧
    EventType.Swap ≠ EventType.Delegate := by
  constructor
  · decide
  · decide

/-- Claim C2 (amended): in a transaction containing a `message` event whose
action includes `MsgDelegate` and a `token_swapped` event, and in which no
message action matches the swap patterns (`MsgSwapExactAmountIn` /
`MsgSwap`), enhanced processing classifies the transaction as `delegate`:
the message-action inspection decides before the fact-based fallback. -/
theorem c2_classification_priority_amended (m : WSMessage)
    (t : EnhancedDecodedTxResult)
    (h : processEnhancedTxMessage m = some t)
    (hdel : (messageActions t.decodedEvents).any
      (fun a => jsIncludes a "MsgDelegate") = true)
    (hnoswap : (messageActions t.decodedEvents).any
      (fun a => jsIncludes a "MsgSwapExactAmountIn" || jsIncludes a "MsgSwap") = false)
    (htok : t.decodedEvents.any (fun e => e.type = "token_swapped") = true) :
    t.txType = some EventType.Delegate := by
  rcases hb : processTxMessage m with _ | b
  · rw [processEnhancedTxMessage, hb] at h
    exact absurd h (by simp)
  · rw [processEnhancedTxMessage, hb] at h
    obtain rfl := (Option.some_inj).mp h.symm
    simp only [determineTxType] at hdel hnoswap ⊢
    have hne : (b.decodedEvents.filter (fun e => e.type = "message")).length > 0 := by
      by_contra hc
      have h0 : (b.decodedEvents.filter (fun e => e.type = "message")) = [] := by
        have := Nat.eq_zero_of_not_pos hc
        exact List.length_eq_zero.mp this
      rw [messageActions, h0] at hdel
      simp at hdel
    rw [if_pos hne, hnoswap, hdel]
    simp

/-- Claim C2 (amended), witness: the amended theorem applied to the
concrete delegate-plus-`token_swapped` message. -/
theorem c2_classification_priority_witness :
    (processEnhancedTxMessage delegateTokenSwappedMsg).map (fun t => t.txType) =
      some (some EventType.Delegate) := by
  rcases hp : processEnhancedTxMessage delegateTokenSwappedMsg with _ | t
  · exact absurd hp (by decide)
  · have hdel :
        (messageActions t.decodedEvents).any (fun a => jsIncludes a "MsgDelegate") = true := by
      have hx : (processEnhancedTxMessage delegateTokenSwappedMsg).map (fun t =>
          (messageActions t.decodedEvents).any (fun a => jsIncludes a "MsgDelegate")) =
          some true := by decide
      rw [hp] at hx
      simpa using hx
    have hnoswap :
        (messageActions t.decodedEvents).any
          (fun a => jsIncludes a "MsgSwapExactAmountIn" || jsIncludes a "MsgSwap") = false := by
      have hx : (processEnhancedTxMessage delegateTokenSwappedMsg).map (fun t =>
          (messageActions t.decodedEvents).any
            (fun a => jsIncludes a "MsgSwapExactAmountIn" || jsIncludes a "MsgSwap")) =
          some false := by decide
      rw [hp] at hx
      simpa using hx
    have htok : t.decodedEvents.any (fun e => e.type = "token_swapped") = true := by
      have hx : (processEnhancedTxMessage delegateTokenSwappedMsg).map (fun t =>
          t.decodedEvents.any (fun e => e.type = "token_swapped")) = some true := by decide
      rw [hp] at hx
      simpa using hx
    exact congrArg some
      (c2_classification_priority_amended delegateTokenSwappedMsg t hp hdel hnoswap htok)

/-- Claim C4: a condition with `negated = true` matches any event lacking
the condition's attribute key, and a value-less condition with
`negated = true` does not match an event carrying the key (value-less
conditions are key-existence checks, then negated). -/
theorem c4_negated_condition (regexTest : String → String → Bool)
    (e : DecodedTendermintEvent) (condition : AttributeCondition)
    (hneg : condition.negated = some true) :
    (lookupA e.attributes condition.key = none →
      matchesCondition regexTest e condition = true) ∧
    (∀ vs, lookupA e.attributes condition.key = some vs →
      condition.value = none →
      matchesCondition regexTest e condition = false) := by
  constructor
  · intro h
    simp [matchesCondition, hneg, h]
  · intro vs h hv
    simp [matchesCondition, hneg, h, hv]

/-- Claim C4, witness: the negated `memo` condition on an event without a
`memo` attribute matches; on an event with one and no expected value it
does not. -/
theorem c4_negated_condition_witness :
    matchesCondition noRegex
      { type := "transfer", attributes := [], rawAttributes := [] }
      { key := "memo", value := none, matchType := none, negated := some true } = true ∧
    matchesCondition noRegex
      { type := "transfer", attributes := [("memo", ["hi"])], rawAttributes := [] }
      { key := "memo", value := none, matchType := none, negated := some true } = false := by
  constructor
  · exact (c4_negated_condition noRegex
      { type := "transfer", attributes := [], rawAttributes := [] }
      { key := "memo", value := none, matchType := none, negated := some true } rfl).1 rfl
  · exact (c4_negated_condition noRegex
      { type := "transfer", attributes := [("memo", ["hi"])], rawAttributes := [] }
      { key := "memo", value := none, matchType := none, negated := some true } rfl).2
      ["hi"] rfl rfl

/-- Claim C6: the attribute-decoding step returns unchanged every value the
encoded-ness classifier rejects — decoding is idempotent on
already-decoded values. -/
theorem c6_decode_idempotent (events : List TendermintEvent)
    (e : DecodedTendermintEvent) (he : e ∈ decodeEvents events)
    (ra : RawAttribute) (hra : ra ∈ e.rawAttributes)
    (hv : isBase64 ra.value = false) :
    ra.decodedValue = ra.value := by
  obtain ⟨ev, _, rfl⟩ := List.mem_map.mp he
  obtain ⟨a, _, rfl⟩ := List.mem_map.mp hra
  simp only [decodeAttr] at hv ⊢
  rw [if_neg (by simp [hv])]

/-- Claim C6, witness: the plain value `hello world` is rejected by the
classifier and survives decoding unchanged. -/
theorem c6_decode_idempotent_witness :
    isBase64 "hello world" = false ∧
    (decodeAttr noteAttr).decodedValue = (decodeAttr noteAttr).value := by
  refine ⟨by decide, ?_⟩
  exact c6_decode_idempotent [noteEvent] (decodeEvent noteEvent) (by decide)
    (decodeAttr noteAttr) (by decide) (by decide)

/-- Claim C5, counterexample: a `withdraw_rewards` event whose `delegator`
attribute is absent but whose `sender` and `validator` are present emits no
staking fact — the withdraw-rewards branch has no sender fallback. -/
theorem c5_withdraw_no_fallback_counterexample :
    withdrawNoDelegatorEvent.type = "withdraw_rewards" ∧
    lookupA withdrawNoDelegatorEvent.attributes "delegator" = none ∧
    firstAttr withdrawNoDelegatorEvent "sender" = some "S" ∧
    firstAttr withdrawNoDelegatorEvent "validator" = some "V" ∧
    extractStakingDetails [withdrawNoDelegatorEvent] = [] := by
  decide

/-- `takeWhile` over an append whose left part satisfies the predicate and
whose right part starts with a failing element returns the left part. -/
theorem takeWhile_append_left (p : Char → Bool) (d r : List Char)
    (hd : ∀ c ∈ d, p c = true) (hr : ∀ a, r.head? = some a → p a = false) :
    (d ++ r).takeWhile p = d := by
  induction d with
  | nil =>
    cases r with
    | nil => rfl
    | cons a rtl => simp [List.takeWhile_cons, hr a rfl]
  | cons c ctl ih =>
    have hc := hd c (List.mem_cons_self c ctl)
    simp [List.takeWhile_cons, hc, ih (fun x hx => hd x (List.mem_cons_of_mem _ hx))]

/-- Claim C5 (amended): in the staking extraction, the `delegator` falls
back to the `sender` attribute for the delegate, undelegate and redelegate
branches, but a `withdraw_rewards` event requires the `delegator` attribute
itself (no sender fallback, and the withdraw branch is recognized by direct
event type only); the amount is split into digit prefix and trailing denom
by the digits-then-rest pattern; and no fact is emitted when the delegator
(and its fallback) or all validator fields are absent. -/
theorem c5_staking_extraction_amended :
    (∀ (e : DecodedTendermintEvent) (s v : String),
      e.type ≠ "withdraw_rewards" →
      (e.type = "delegate" || actionsAny e "MsgDelegate") = true →
      firstAttr e "delegator" = none →
      firstAttr e "sender" = some s → s ≠ "" →
      firstAttr e "validator" = some v → v ≠ "" →
      stakingFromEvent e =
        [{ action := "delegate", delegator := s, validator := v,
           amount := (parseAmountOpt (firstAttr e "amount")).1,
           denom := (parseAmountOpt (firstAttr e "amount")).2,
           sourceValidator := none, destinationValidator := none }]) ∧
    (∀ (e : DecodedTendermintEvent) (s v : String),
      e.type ≠ "withdraw_rewards" →
      (e.type = "delegate" || actionsAny e "MsgDelegate") = false →
      (e.type = "unbond" || actionsAny e "MsgUndelegate") = true →
      firstAttr e "delegator" = none →
      firstAttr e "sender" = some s → s ≠ "" →
      firstAttr e "validator" = some v → v ≠ "" →
      stakingFromEvent e =
        [{ action := "undelegate", delegator := s, validator := v,
           amount := (parseAmountOpt (firstAttr e "amount")).1,
           denom := (parseAmountOpt (firstAttr e "amount")).2,
           sourceValidator := none, destinationValidator := none }]) ∧
    (∀ (e : DecodedTendermintEvent) (s sv : String),
      e.type ≠ "withdraw_rewards" →
      (e.type = "delegate" || actionsAny e "MsgDelegate") = false →
      (e.type = "unbond" || actionsAny e "MsgUndelegate") = false →
      (e.type = "redelegate" || actionsAny e "MsgBeginRedelegate") = true →
      firstAttr e "delegator" = none →
      firstAttr e "sender" = some s → s ≠ "" →
      firstAttr e "source_validator" = some sv → sv ≠ "" →
      firstAttr e "destination_validator" = none →
      stakingFromEvent e =
        [{ action := "redelegate", delegator := s, validator := sv,
           amount := (parseAmountOpt (firstAttr e "amount")).1,
           denom := (parseAmountOpt (firstAttr e "amount")).2,
           sourceValidator := some sv, destinationValidator := none }]) ∧
    (∀ e : DecodedTendermintEvent, e.type = "withdraw_rewards" →
      firstAttr e "delegator" = none → stakingFromEvent e = []) ∧
    (∀ (s : String) (d r : List Char),
      s.data = d ++ r → d ≠ [] →
      (∀ c ∈ d, c.isDigit = true) →
      (∀ a, r.head? = some a → a.isDigit = false) →
      r ≠ [] → (∀ c ∈ r, jsDotChar c = true) →
      splitAmount s = (⟨d⟩, ⟨r⟩)) ∧
    (∀ e : DecodedTendermintEvent, firstAttr e "delegator" = none →
      firstAttr e "sender" = none → stakingFromEvent e = []) ∧
    (∀ e : DecodedTendermintEvent, firstAttr e "validator" = none →
      firstAttr e "source_validator" = none →
      firstAttr e "destination_validator" = none → stakingFromEvent e = []) := by
  refine ⟨?_, ?_, ?_, ?_, ?_, ?_, ?_⟩
  · intro e s v h1 h2 h3 h4 h5 h6 h7
    simp [stakingFromEvent, h1, h2, h3, h4, h5, h6, h7, jsOrS, truthyOS, truthyS]
  · intro e s v h1 h2 h2b h3 h4 h5 h6 h7
    simp [stakingFromEvent, h1, h2, h2b, h3, h4, h5, h6, h7, jsOrS, truthyOS, truthyS]
  · intro e s sv h1 h2 h2b h2c h3 h4 h5 h6 h7 h8
    simp [stakingFromEvent, h1, h2, h2b, h2c, h3, h4, h5, h6, h7, h8, jsOrS, truthyOS, truthyS]
  · intro e h1 h2
    simp [stakingFromEvent, h1, h2, truthyOS]
  · intro s d r hs hdne hdig hhead hrne hdot
    have ht : s.data.takeWhile (·.isDigit) = d := by
      rw [hs]
      exact takeWhile_append_left _ d r hdig hhead
    have hdrop2 : s.data.drop d.length = r := by
      rw [hs]
      exact List.drop_left d r
    have hd0 : d.isEmpty = false := by
      cases d with
      | nil => exact absurd rfl hdne
      | cons a l => rfl
    have hr0 : r.isEmpty = false := by
      cases r with
      | nil => exact absurd rfl hrne
      | cons a l => rfl
    have hall : r.all jsDotChar = true := List.all_eq_true.mpr hdot
    simp only [splitAmount]
    rw [ht, hdrop2]
    simp [hd0, hr0, hall]
  · intro e h1 h2
    simp [stakingFromEvent, h1, h2, jsOrS, truthyOS]
  · intro e h1 h2 h3
    simp [stakingFromEvent, h1, h2, h3, truthyOS]

/-- Claim C5 (amended), witness: the sender fallback firing through a
message-action-recognized delegation, the missing withdraw fallback, the
amount split, and the two no-emission cases, all at concrete events. -/
theorem c5_staking_extraction_witness :
    stakingFromEvent delegateSenderFallbackEvent =
      [{ action := "delegate", delegator := "S", validator := "V", amount := "100",
         denom := "uatom", sourceValidator := none, destinationValidator := none }] ∧
    stakingFromEvent withdrawNoDelegatorEvent = [] ∧
    splitAmount "100uatom" = ("100", "uatom") ∧
    stakingFromEvent delegateNoDelegatorEvent = [] ∧
    stakingFromEvent delegateNoValidatorEvent = [] := by
  refine ⟨?_, ?_, ?_, ?_, ?_⟩
  · have h := c5_staking_extraction_amended.1 delegateSenderFallbackEvent "S" "V"
      (by decide) (by decide) (by decide) (by decide) (by decide) (by decide) (by decide)
    rw [h]
    decide
  · exact c5_staking_extraction_amended.2.2.2.1 withdrawNoDelegatorEvent (by decide) (by decide)
  · exact c5_staking_extraction_amended.2.2.2.2.1 "100uatom" "100".data "uatom".data
      (by decide) (by decide) (by decide) (by decide) (by decide) (by decide)
  · exact c5_staking_extraction_amended.2.2.2.2.2.1 delegateNoDelegatorEvent
      (by decide) (by decide)
  · exact c5_staking_extraction_amended.2.2.2.2.2.2 delegateNoValidatorEvent
      (by decide) (by decide) (by decide)

/-- Lookup after a single attribute insertion. -/
theorem lookupA_insertAttr (m : List (String × List String)) (k v q : String) :
    lookupA (insertAttr m k v) q =
      if k = q then some (((lookupA m k).getD []) ++ [v]) else lookupA m q := by
  induction m with
  | nil =>
    by_cases h : k = q
    · simp [insertAttr, lookupA, h]
    · simp [insertAttr, lookupA, h]
  | cons p rest ih =>
    obtain ⟨k1, vs⟩ := p
    by_cases h1 : k1 = k
    · subst h1
      by_cases h : k1 = q
      · subst h
        simp [insertAttr, lookupA]
      · simp [insertAttr, lookupA, h]
    · by_cases h : k1 = q
      · subst h
        have hkq : ¬ k = k1 := fun hh => h1 hh.symm
        simp [insertAttr, lookupA, h1, hkq]
      · simp [insertAttr, lookupA, h1, h, ih]

/-- Folding attribute insertions over a map that already binds the key
appends the matching decoded values in encounter order. -/
theorem lookupA_foldl_insert_some (ras : List RawAttribute)
    (m : List (String × List String)) (q : String) (vs : List String)
    (hm : lookupA m q = some vs) :
    lookupA (ras.foldl (fun acc ra => insertAttr acc ra.decodedKey ra.decodedValue) m) q =
      some (vs ++ (ras.filter (fun ra => ra.decodedKey = q)).map
        (fun ra => ra.decodedValue)) := by
  induction ras generalizing m vs with
  | nil => simpa using hm
  | cons ra ras ih =>
    simp only [List.foldl_cons]
    by_cases h : ra.decodedKey = q
    · have hm2 : lookupA (insertAttr m ra.decodedKey ra.decodedValue) q =
          some (vs ++ [ra.decodedValue]) := by
        rw [lookupA_insertAttr, if_pos h, h, hm]
        rfl
      rw [ih _ _ hm2]
      simp [h]
    · have hm2 : lookupA (insertAttr m ra.decodedKey ra.decodedValue) q = some vs := by
        rw [lookupA_insertAttr, if_neg h]
        exact hm
      rw [ih _ _ hm2]
      simp [h]

/-- Folding attribute insertions over a map without the key produces
exactly the matching decoded values, or no binding when there are none. -/
theorem lookupA_foldl_insert_none (ras : List RawAttribute)
    (m : List (String × List String)) (q : String)
    (hm : lookupA m q = none) :
    lookupA (ras.foldl (fun acc ra => insertAttr acc ra.decodedKey ra.decodedValue) m) q =
      (if (ras.filter (fun ra => ra.decodedKey = q)) = [] then none
       else some ((ras.filter (fun ra => ra.decodedKey = q)).map
         (fun ra => ra.decodedValue))) := by
  induction ras generalizing m with
  | nil => simpa using hm
  | cons ra ras ih =>
    simp only [List.foldl_cons]
    by_cases h : ra.decodedKey = q
    · have hm2 : lookupA (insertAttr m ra.decodedKey ra.decodedValue) q =
          some [ra.decodedValue] := by
        rw [lookupA_insertAttr, if_pos h, h, hm]
        rfl
      rw [lookupA_foldl_insert_some ras _ _ _ hm2]
      simp [h]
    · have hm2 : lookupA (insertAttr m ra.decodedKey ra.decodedValue) q = none := by
        rw [lookupA_insertAttr, if_neg h]
        exact hm
      rw [ih _ hm2]
      simp [h]

/-- Claim C8: in every decoded event, the attribute map is exactly derived
from the provenance records — for every key, the bound value list is the
sequence of decoded values of the raw attributes sharing that decoded key,
in encounter order, duplicates retained. -/
theorem c8_attributes_derived_from_provenance (events : List TendermintEvent)
    (e : DecodedTendermintEvent) (he : e ∈ decodeEvents events) (k : String) :
    lookupA e.attributes k =
      (if (e.rawAttributes.filter (fun ra => ra.decodedKey = k)) = [] then none
       else some ((e.rawAttributes.filter (fun ra => ra.decodedKey = k)).map
         (fun ra => ra.decodedValue))) := by
  obtain ⟨ev, _, rfl⟩ := List.mem_map.mp he
  exact lookupA_foldl_insert_none (ev.attributes.map decodeAttr) [] k rfl

/-- Claim C8, witness: two raw `sender` attributes accumulate into the
two-element list `[A, B]` in encounter order. -/
theorem c8_attributes_derived_witness :
    lookupA (decodeEvent duplicateSenderEvent).attributes "sender" =
      (if ((decodeEvent duplicateSenderEvent).rawAttributes.filter
            (fun ra => ra.decodedKey = "sender")) = [] then none
       else some (((decodeEvent duplicateSenderEvent).rawAttributes.filter
         (fun ra => ra.decodedKey = "sender")).map (fun ra => ra.decodedValue))) ∧
    lookupA (decodeEvent duplicateSenderEvent).attributes "sender" = some ["A", "B"] := by
  constructor
  · exact c8_attributes_derived_from_provenance [duplicateSenderEvent]
      (decodeEvent duplicateSenderEvent) (by decide) "sender"
  · decide

/-- Claim C3: the basic filter engine is a conjunction over configured
tiers only — with only wallet filtering configured the transaction passes
iff the wallet match evidence is non-empty, adding a structural event
filter matched by no event turns the result into a failure, and with
nothing configured every transaction passes. -/
theorem c3_basic_filter_conjunction :
    (∀ (wallets : List String) (tx : DecodedTxResult), wallets ≠ [] →
      (((applyFilters (walletStateOf wallets) tx).1 = true) ↔
        (checkWalletAddressFilter (walletStateOf wallets) tx).2 ≠ [])) ∧
    (∀ (wallets : List String) (efs : List EventFilter) (tx : DecodedTxResult),
      efs ≠ [] →
      (∀ e ∈ tx.decodedEvents, ∀ f ∈ efs, matchesEventFilter e f = false) →
      (applyFilters (walletEventStateOf wallets efs) tx).1 = false) ∧
    (∀ tx : DecodedTxResult, (applyFilters emptyFilterState tx).1 = true) := by
  refine ⟨?_, ?_, ?_⟩
  · intro wallets tx hw
    have hwasm : checkWasmContractFilter (walletStateOf wallets) tx = true := rfl
    have hjson : checkJsonFilters (walletStateOf wallets) tx = true := rfl
    have hevent : checkEventFilters (walletStateOf wallets) tx = true := rfl
    have hlen : ¬ (walletStateOf wallets).walletAddresses.length = 0 := by
      simpa [walletStateOf, List.length_eq_zero] using hw
    have hpass : (applyFilters (walletStateOf wallets) tx).1 =
        ((decide ((walletStateOf wallets).walletAddresses.length = 0)) ||
          (checkWalletAddressFilter (walletStateOf wallets) tx).1) := by
      simp [applyFilters, hwasm, hjson, hevent]
    rw [hpass, decide_eq_false hlen]
    simp only [Bool.false_or]
    simp only [checkWalletAddressFilter]
    rw [if_neg hlen]
    have hgen : ∀ l : List WalletMatchDetail, (decide (l.length > 0) = true) ↔ l ≠ [] := by
      intro l
      simp [List.length_pos]
    exact hgen _
  · intro wallets efs tx hefs hnone
    have hev : checkEventFilters (walletEventStateOf wallets efs) tx = false := by
      obtain ⟨f0, fs0, rfl⟩ := List.exists_cons_of_ne_nil hefs
      simp only [checkEventFilters, walletEventStateOf]
      rw [if_neg (by simp)]
      simp only [List.any_eq_false]
      intro e he hany
      obtain ⟨f, hfmem, hfm⟩ := List.any_eq_true.mp hany
      rw [hnone e he f hfmem] at hfm
      simp at hfm
    obtain ⟨f0, fs0, rfl⟩ := List.exists_cons_of_ne_nil hefs
    simp only [walletEventStateOf] at hev
    simp only [applyFilters, walletEventStateOf]
    simp [hev]
  · intro tx
    simp [applyFilters, emptyFilterState, checkWasmContractFilter,
      checkWalletAddressFilter, checkJsonFilters, checkEventFilters]

/-- Claim C3, witness: the conjunction theorem applied to a transaction
whose `message` event delegates from the watched wallet `addr1`: the
wallet-only configuration passes, adding the unmatched `burn` structural
filter fails, and the empty configuration passes. -/
theorem c3_basic_filter_conjunction_witness :
    (applyFilters walletOnlyState walletMatchTx).1 = true ∧
    (applyFilters walletAndBurnState walletMatchTx).1 = false ∧
    (applyFilters emptyFilterState walletMatchTx).1 = true := by
  refine ⟨?_, ?_, ?_⟩
  · exact (c3_basic_filter_conjunction.1 ["addr1"] walletMatchTx (by decide)).mpr (by decide)
  · exact c3_basic_filter_conjunction.2.1 ["addr1"] [burnEventFilter] walletMatchTx
      (by decide) (by decide)
  · exact c3_basic_filter_conjunction.2.2 walletMatchTx

/-- Claim C9: loading the filter configuration raises to the caller on any
entry whose file is missing/unreadable/unparseable or whose parsed value is
not a top-level array, and succeeds when every entry parses to an array. -/
theorem c9_config_load_failure :
    (∀ (fs : String → Option Json) (files : List (String × String)) (key path : String),
      (key, path) ∈ files →
      (fs path = none ∨ ∃ j, fs path = some j ∧ j.isArr = false) →
      isErr (loadFilters fs files) = true) ∧
    (∀ (fs : String → Option Json) (files : List (String × String)),
      (∀ key path, (key, path) ∈ files → ∃ vs, fs path = some (Json.arr vs)) →
      isErr (loadFilters fs files) = false) := by
  constructor
  · intro fs files key path
    induction files with
    | nil =>
      intro hmem _
      simp at hmem
    | cons f rest ih =>
      intro hmem hbad
      obtain ⟨k0, p0⟩ := f
      rcases List.mem_cons.mp hmem with heq | hmemrest
      · injection heq with hk hp
        subst hk
        subst hp
        rcases hbad with hnone | ⟨j, hj, hnarr⟩
        · simp [loadFilters, hnone, isErr]
        · cases j <;> simp_all [loadFilters, isErr, Json.isArr]
      · rcases hfs0 : fs p0 with _ | j
        · simp [loadFilters, hfs0, isErr]
        · have ihr := ih hmemrest hbad
          rcases j with vs | _ | s1 | n1 | b1 | _
          · rcases hrec : loadFilters fs rest with emsg | mres
            · simp [loadFilters, hfs0, hrec, isErr]
            · rw [hrec] at ihr
              simp [isErr] at ihr
          · simp [loadFilters, hfs0, isErr]
          · simp [loadFilters, hfs0, isErr]
          · simp [loadFilters, hfs0, isErr]
          · simp [loadFilters, hfs0, isErr]
          · simp [loadFilters, hfs0, isErr]
  · intro fs files
    induction files with
    | nil =>
      intro _
      simp [loadFilters, isErr]
    | cons f rest ih =>
      intro hall
      obtain ⟨k0, p0⟩ := f
      obtain ⟨vs, hv⟩ := hall k0 p0 (List.mem_cons_self _ _)
      have h2 := ih (fun k p hm => hall k p (List.mem_cons_of_mem _ hm))
      cases hrec : loadFilters fs rest with
      | ok mres => simp [loadFilters, hv, hrec, isErr]
      | error emsg =>
        rw [hrec] at h2
        simp [isErr] at h2

/-- Claim C9, witness: the loader fails on a filter map with a non-array
file and succeeds on the well-formed entry alone. -/
theorem c9_config_load_failure_witness :
    isErr (loadFilters witnessFs witnessFilterFiles) = true ∧
    isErr (loadFilters witnessFs [("recipients", "good.json")]) = false := by
  constructor
  · exact c9_config_load_failure.1 witnessFs witnessFilterFiles "senders" "bad.json"
      (by decide) (Or.inr ⟨Json.obj, by decide, by decide⟩)
  · refine c9_config_load_failure.2 witnessFs [("recipients", "good.json")] ?_
    intro k p hm
    simp only [List.mem_singleton] at hm
    obtain ⟨hk, hp⟩ := Prod.mk.injEq .. ▸ hm
    subst hp
    exact ⟨["osmo1recipient"], by decide⟩

/-- Claim C10: the dispatch path's emissions are gated by the basic
`FilterManager` result only — the advanced filter engine's result is
computed but never changes any emission or the attached match evidence —
and each of the filtered/wasm/wallet/staking events is emitted iff the
basic filters pass (with the respective evidence or staking condition). -/
theorem c10_dispatch_ignores_advanced_filters :
    (∀ (st : FilterState) (advA advB : List AdvancedFilter)
        (rt : String → String → Bool) (ex : Bool) (m : WSMessage),
      handleWebSocketMessage st advA rt ex m = handleWebSocketMessage st advB rt ex m) ∧
    (∀ (st : FilterState) (adv : List AdvancedFilter) (rt : String → String → Bool)
        (ex : Bool) (m : WSMessage) (t : DecodedTxResult),
      (ex && containsUnwantedEvents m) = false →
      isSubscriptionConfirmation m = false →
      processTxMessage m = some t →
      ((Emission.filteredTx { t with matchedFilters := some (applyFilters st t).2 } ∈
          handleWebSocketMessage st adv rt ex m) ↔ (applyFilters st t).1 = true) ∧
      ((Emission.wasmTx { t with matchedFilters := some (applyFilters st t).2 } ∈
          handleWebSocketMessage st adv rt ex m) ↔
        ((applyFilters st t).1 = true ∧
          (applyFilters st t).2.any (fun f => f.filterType = "wasmContract") = true)) ∧
      ((Emission.walletTx { t with matchedFilters := some (applyFilters st t).2 } ∈
          handleWebSocketMessage st adv rt ex m) ↔
        ((applyFilters st t).1 = true ∧
          (applyFilters st t).2.any (fun f => f.filterType = "walletAddress") = true)) ∧
      ((Emission.stakingTx { t with matchedFilters := some (applyFilters st t).2 } ∈
          handleWebSocketMessage st adv rt ex m) ↔
        ((applyFilters st t).1 = true ∧ hasStakingOp t = true))) := by
  constructor
  · intro st advA advB rt ex m
    rfl
  · intro st adv rt ex m t h1 h2 h3
    simp only [handleWebSocketMessage, h1, h2, h3, transformEvents, Bool.false_eq_true,
      if_false]
    cases hp : (applyFilters st t).1 with
    | false =>
      simp [hp]
    | true =>
      cases hw : ((applyFilters st t).2.any (fun f => f.filterType = "wasmContract")) <;>
        cases hwl : ((applyFilters st t).2.any (fun f => f.filterType = "walletAddress")) <;>
          cases hst : hasStakingOp t <;>
            simp [hp, hw, hwl, hst]

/-- Claim C10, witness: both conjuncts of the dispatch theorem applied to
the delegate scenario message under a wallet filter watching `A`: changing
the advanced filter list changes nothing, and the filtered transaction is
emitted with the basic evidence attached. -/
theorem c10_dispatch_ignores_advanced_filters_witness :
    (handleWebSocketMessage walletAState [] noRegex true delegateScenarioMsg =
      handleWebSocketMessage walletAState [trivialAdvancedFilter] noRegex true
        delegateScenarioMsg) ∧
    (processTxMessage delegateScenarioMsg).map (fun t =>
      decide (Emission.filteredTx { t with matchedFilters := some (applyFilters walletAState t).2 } ∈
        handleWebSocketMessage walletAState [] noRegex true delegateScenarioMsg)) =
      some true := by
  refine ⟨c10_dispatch_ignores_advanced_filters.1 walletAState [] [trivialAdvancedFilter]
    noRegex true delegateScenarioMsg, ?_⟩
  cases hp : processTxMessage delegateScenarioMsg with
  | none => exact absurd hp (by decide)
  | some t =>
    have h := (c10_dispatch_ignores_advanced_filters.2 walletAState [] noRegex true
      delegateScenarioMsg t (by decide) (by decide) hp).1
    have hpass : (applyFilters walletAState t).1 = true := by
      have hx : (processTxMessage delegateScenarioMsg).map
          (fun t => (applyFilters walletAState t).1) = some true := by decide
      rw [hp] at hx
      simpa using hx
    exact congrArg some (decide_eq_true (h.mpr hpass))

end Tmws
